import Mathlib

set_option maxRecDepth 100000

/-!
Shallow embedding of the cleansource-cli source-tree inspection pipeline
(fingerprint engine in internal/scanner/wfp.go, build-tool resolver in
pkg/buildtools, manifest parsers for Maven, npm, pip and pipenv), together
with proofs of the stated properties of the natural-language specification.

The file is organised as: all definitions first (data model, resolver,
Maven / npm / pip / pipenv parsers, fingerprint engine), then the theorems.
-/

namespace CleanSource

/-! ## Data model (internal/model/types.go)

The Go `Dependency.Children` field is never populated by any scanner in this
repository, and `Dependency.ID` is a pointer that every construction site sets
to a fresh `DependencyID`; the embedding uses a plain value and omits the
always-empty children list. -/

structure DependencyID where
  group : String
  name : String
  version : String
  type : String
deriving Repr, DecidableEq

structure Dependency where
  id : DependencyID
  name : String
  version : String
  type : String
  scope : String
deriving Repr, DecidableEq

structure DependencyRoot where
  projectName : String
  projectVersion : String
  buildTool : String
  dependencies : List Dependency
deriving Repr, DecidableEq

/-! ## Build-tool resolver (src/unnamed/part_010, `BuildScanner.ScanDependencies`)

A scanner instantiated by the resolver is observed through the results of its
three protocol steps `ExeFind`, `FileFind` and `ScanExecute`; the embedding
records those outcomes. -/

structure ScannerRun where
  exeFind : Except String Unit
  fileFind : Except String Unit
  scanExecute : Except String (List DependencyRoot)

/-- One iteration of the loop body of `BuildScanner.ScanDependencies`:
each failing step `continue`s, a fully successful scanner appends its roots. -/
def scanStep (acc : List DependencyRoot) (s : ScannerRun) : List DependencyRoot :=
  match s.exeFind with
  | Except.error _ => acc
  | Except.ok _ =>
    match s.fileFind with
    | Except.error _ => acc
    | Except.ok _ =>
      match s.scanExecute with
      | Except.error _ => acc
      | Except.ok deps => acc ++ deps

/-- `BuildScanner.ScanDependencies`: runs every instantiated scanner in
sequence and always returns `nil` error together with the accumulated roots. -/
def ScanDependencies (scanners : List ScannerRun) : Except String (List DependencyRoot) :=
  Except.ok (scanners.foldl scanStep [])

/-- Spec-side aggregation (the refinement target, written from the spec's
words): the contribution of a scanner that completes all of its steps
successfully, and the empty contribution of any other scanner. -/
def successContribution (s : ScannerRun) : List DependencyRoot :=
  match s.exeFind, s.fileFind, s.scanExecute with
  | Except.ok _, Except.ok _, Except.ok deps => deps
  | _, _, _ => []

/-- Spec-side aggregation policy: concatenate the outputs of all scanners that
complete successfully; failed scanners contribute nothing. -/
def specAggregate (scanners : List ScannerRun) : List DependencyRoot :=
  (scanners.map successContribution).flatten

/-- A concrete Maven root as the repository's own unit test
`TestBuildScanner_ScanDependencies` expects it from the pom fallback parse. -/
def mavenPomTestRoot : DependencyRoot :=
  { projectName := "test-project"
    projectVersion := "1.0.0"
    buildTool := "maven"
    dependencies :=
      [ { id := { group := "junit", name := "junit", version := "4.13.2", type := "" }
          name := "junit", version := "4.13.2", type := "jar", scope := "test" }
      , { id := { group := "com.google.guava", name := "guava", version := "31.1-jre", type := "" }
          name := "guava", version := "31.1-jre", type := "jar", scope := "compile" } ] }

/-! ## Maven scanner (pkg/buildtools/maven.go)

`MavenPOM` is the decoded form of a `pom.xml`; XML decoding itself is done by
Go's `encoding/xml`, so the embedding starts from the decoded structure.
Absent `<scope>`/`<type>` elements decode to the empty string, exactly as
`encoding/xml` leaves the corresponding struct fields. -/

structure MavenDependency where
  groupID : String
  artifactID : String
  version : String
  scope : String
  type : String
deriving Repr, DecidableEq

structure MavenPOM where
  groupID : String
  artifactID : String
  version : String
  dependencies : List MavenDependency
deriving Repr, DecidableEq

/-- The loop body of `MavenScanner.pomToDepencyRoot`: build the dependency
from the raw POM fields, then default the `Type` field to `"jar"` and the
`Scope` field to `"compile"` when empty.  The Go code patches only the outer
`dependency.Type`, never `dependency.ID.Type`. -/
def convertPomDep (dep : MavenDependency) : Dependency :=
  let dependency : Dependency :=
    { id := { group := dep.groupID, name := dep.artifactID
              version := dep.version, type := dep.type }
      name := dep.artifactID, version := dep.version
      type := dep.type, scope := dep.scope }
  let dependency := if dependency.type = "" then { dependency with type := "jar" } else dependency
  let dependency := if dependency.scope = "" then { dependency with scope := "compile" } else dependency
  dependency

/-- `MavenScanner.pomToDepencyRoot` (source spelling kept): the POM-only
fallback that turns a parsed POM into a `DependencyRoot`. -/
def pomToDepencyRoot (pom : MavenPOM) : DependencyRoot :=
  { projectName := pom.artifactID
    projectVersion := pom.version
    buildTool := "maven"
    dependencies := pom.dependencies.map convertPomDep }

/-- A POM whose single dependency declares no `<type>` element. -/
def pomNoType : MavenPOM :=
  { groupID := "com.example", artifactID := "demo", version := "1.0"
    dependencies :=
      [ { groupID := "junit", artifactID := "junit", version := "4.13.2"
          scope := "test", type := "" } ] }

/-! ## npm scanner (`NpmScanner.parsePackageJson`, scanners file)

`PackageInfo` is the decoded form of `package.json`; the three dependency
maps are embedded as association lists (Go iterates each map in unspecified
order; every claim below is order-insensitive or stated per segment). -/

structure PackageInfo where
  name : String
  version : String
  dependencies : List (String × String)
  devDependencies : List (String × String)
  peerDependencies : List (String × String)
deriving Repr, DecidableEq

/-- One entry of a package.json dependency map turned into a `Dependency`,
with the scope fixed by which of the three maps it came from. -/
def npmDep (scope : String) (nv : String × String) : Dependency :=
  { id := { group := "", name := nv.1, version := nv.2, type := "npm" }
    name := nv.1, version := nv.2, type := "npm", scope := scope }

/-- `NpmScanner.parsePackageJson`: project identity (defaulted to "unknown")
plus the three dependency maps appended with scopes `"runtime"`,
`"development"` and `"peer"` respectively. -/
def parsePackageJson (p : PackageInfo) : String × String × List Dependency :=
  let projectName := if p.name = "" then "unknown" else p.name
  let projectVersion := if p.version = "" then "unknown" else p.version
  let dependencies :=
    p.dependencies.map (npmDep "runtime")
    ++ p.devDependencies.map (npmDep "development")
    ++ p.peerDependencies.map (npmDep "peer")
  (projectName, projectVersion, dependencies)

/-- `NpmScanner.ScanExecute`: wraps the parse result in a single root with
build tool `"npm"`; a parse failure propagates as an error. -/
def npmScanExecute (parsed : Except String PackageInfo) : Except String (List DependencyRoot) :=
  match parsed with
  | Except.error e => Except.error ("failed to parse package.json: " ++ e)
  | Except.ok p =>
    let r := parsePackageJson p
    Except.ok [ { projectName := r.1, projectVersion := r.2.1
                  buildTool := "npm", dependencies := r.2.2 } ]

/-! ## Go string helpers

Character-list implementations of the `strings`/`path/filepath` calls the
scanners make, written so that every definition evaluates by kernel
reduction.  `goTrim` is `strings.TrimSpace` on the ASCII whitespace the
manifests use, `goSplit` is `strings.Split`, `goHasPre` is
`strings.HasPrefix`. -/

/-- ASCII whitespace recognised by `strings.TrimSpace`. -/
def isSpaceChar (c : Char) : Bool :=
  (c == ' ') || (c == '\t') || (c == '\n') || (c == '\r') || (c == '\x0b') || (c == '\x0c')

/-- `strings.TrimSpace`. -/
def goTrim (s : String) : String :=
  String.mk (((s.data.dropWhile isSpaceChar).reverse.dropWhile isSpaceChar).reverse)

/-- `strings.HasPrefix`. -/
def goHasPre (s pre : String) : Bool :=
  pre.data.isPrefixOf s.data

/-- Contiguous-substring check on character lists. -/
def isInfixChars (sub : List Char) : List Char → Bool
  | [] => sub.isEmpty
  | c :: rest => sub.isPrefixOf (c :: rest) || isInfixChars sub rest

/-- `strings.Contains`. -/
def goContains (s sub : String) : Bool :=
  isInfixChars sub.data s.data

/-- `strings.SplitN(s, sep, 2)` on character lists: split at the first
occurrence of `sep`, returning the parts before and after it, or `none` when
`sep` does not occur (`strings.Contains` is false). -/
def splitFirst (sep : List Char) : List Char → Option (List Char × List Char)
  | [] => if sep = [] then some ([], []) else none
  | c :: rest =>
    if sep.isPrefixOf (c :: rest) then some ([], (c :: rest).drop sep.length)
    else
      match splitFirst sep rest with
      | some (a, b) => some (c :: a, b)
      | none => none

/-- Fuel-driven splitting worker for `goSplit`; the fuel is an upper bound on
the number of separator occurrences, so `goSplit` always supplies enough. -/
def splitCharsFuel (sep : List Char) : Nat → List Char → List (List Char)
  | 0, l => [l]
  | Nat.succ fuel, l =>
    match splitFirst sep l with
    | some (a, b) => a :: splitCharsFuel sep fuel b
    | none => [l]

/-- `strings.Split` (the scanners only call it with a non-empty separator). -/
def goSplit (s sep : String) : List String :=
  (splitCharsFuel sep.data (s.data.length + 1) s.data).map String.mk

/-! ## pip scanner (pkg/buildtools/pip.go) -/

/-- The `Dependency` built for one pip requirement or installed package. -/
def mkPipDep (name version : String) : Dependency :=
  { id := { group := "", name := name, version := version, type := "pip" }
    name := name, version := version, type := "pip", scope := "runtime" }

/-- `PipScanner.parseRequirementLine`: split the line at the first matching
version separator; a line with no separator (or an empty name part) keeps the
whole trimmed line as the name with version `"unknown"`; a `[extras]` suffix
is stripped from the name. -/
def parseRequirementLine (line : String) : Dependency :=
  let seps := ["==", ">=", "<=", "~=", ">", "<", "!="]
  let nv : Option (String × String) :=
    seps.foldl
      (fun acc sep =>
        match acc with
        | some r => some r
        | none =>
          match splitFirst sep.data line.data with
          | some (a, b) => some (goTrim (String.mk a), goTrim (String.mk b))
          | none => none)
      none
  let name := (nv.map Prod.fst).getD ""
  let version := (nv.map Prod.snd).getD ""
  let name2 := if name = "" then goTrim line else name
  let version2 := if name = "" then "unknown" else version
  let name3 :=
    match splitFirst ['['] name2.data with
    | some (a, _) => String.mk a
    | none => name2
  mkPipDep name3 version2

/-- `PipScanner.parseRequirementsFile` over the lines of requirements.txt:
empty lines, `#` comments and option lines starting with `-` are skipped,
everything else is parsed. -/
def parseRequirementsFile (lines : List String) : List Dependency :=
  lines.filterMap (fun raw =>
    let line := goTrim raw
    if line = "" then none
    else if goHasPre line "#" then none
    else if goHasPre line "-" then none
    else some (parseRequirementLine line))

/-- The pure parsing half of `PipScanner.getInstalledPackages`: the output of
`pip list --format=freeze` split into lines; only `name==version` lines (with
exactly one `==`) contribute. -/
def parsePipFreezeOutput (output : String) : List Dependency :=
  (goSplit output "\n").filterMap (fun l =>
    let line := goTrim l
    if line = "" then none
    else
      match goSplit line "==" with
      | [a, b] => some (mkPipDep (goTrim a) (goTrim b))
      | _ => none)

/-- Go's `depMap[dep.Name] = dep`: replace the binding for the name if one
exists, otherwise add a new one. -/
def insertDep : List (String × Dependency) → Dependency → List (String × Dependency)
  | [], d => [(d.name, d)]
  | kv :: rest, d =>
    if kv.1 == d.name then (kv.1, d) :: rest else kv :: insertDep rest d

/-- `PipScanner.mergeDependencies`: installed packages are inserted into the
map first, then the declared requirements overwrite same-name entries; the
result is the list of map values. -/
def mergeDependencies (requirements installed : List Dependency) : List Dependency :=
  let depMap := installed.foldl insertDep []
  let depMap2 := requirements.foldl insertDep depMap
  depMap2.map Prod.snd

/-- `PipScanner.ScanExecute` (root construction): declared requirements,
merged with the introspected installed list when `pip list` succeeded, under
build tool `"pip"`. -/
def pipScanExecute (reqDeps : List Dependency) (installed : Option (List Dependency))
    (projectName projectVersion : String) : DependencyRoot :=
  let dependencies :=
    match installed with
    | some inst => mergeDependencies reqDeps inst
    | none => reqDeps
  { projectName := projectName, projectVersion := projectVersion
    buildTool := "pip", dependencies := dependencies }

/-! ## pipenv scanner (`PipenvScanner`, scanners file) -/

/-- The `Dependency` built for one `pipenv run pip freeze` line. -/
def mkPipenvDep (name version : String) : Dependency :=
  { id := { group := "", name := name, version := version, type := "pipenv" }
    name := name, version := version, type := "pipenv", scope := "runtime" }

/-- The pure parsing half of `PipenvScanner.getPipenvDependencies`: lines of
`pipenv run pip freeze`; only `name==version` lines contribute. -/
def parsePipenvFreezeOutput (output : String) : List Dependency :=
  (goSplit output "\n").filterMap (fun l =>
    let line := goTrim l
    if line = "" then none
    else
      match goSplit line "==" with
      | [a, b] => some (mkPipenvDep (goTrim a) (goTrim b))
      | _ => none)

/-- `PipenvScanner.ScanExecute` (root construction). -/
def pipenvScanExecute (projectName projectVersion : String)
    (freezeOutput : String) : DependencyRoot :=
  { projectName := projectName, projectVersion := projectVersion
    buildTool := "pipenv", dependencies := parsePipenvFreezeOutput freezeOutput }

/-! ## Maven dependency-tree path (maven.go, `parseDependencyTreeOutput`) -/

/-- Join a list of strings with a separator. -/
def joinWith (sep : String) : List String → String
  | [] => ""
  | [x] => x
  | x :: xs => x ++ sep ++ joinWith sep xs

/-- `strings.ReplaceAll` (non-empty pattern): split on the pattern and join
with the replacement. -/
def goReplaceAll (s old new : String) : String :=
  joinWith new (goSplit s old)

/-- The dependency built from the decoded `groupId:artifactId:type:version:scope`
pieces; `ID.Type` and `Type` receive the same decoded type. -/
def mkMavenTreeDep (groupId artifactId version depType scope : String) : Dependency :=
  { id := { group := groupId, name := artifactId, version := version, type := depType }
    name := artifactId, version := version, type := depType, scope := scope }

/-- The decoding half of `MavenScanner.parseDependencyLine`: fewer than three
`:`-separated parts is an error; with exactly four parts a scope-looking last
part means the type was omitted (defaulted to `"jar"`), otherwise the third
part is the type; five or more parts carry type, version and scope in
positions 2..4; three parts default the type to `"jar"` and the scope to
`"compile"`. -/
def decodeDependencyParts (line : String) (parts : List String) : Except String Dependency :=
  if parts.length < 3 then Except.error ("invalid dependency format: " ++ line)
  else
    let groupId := parts.getD 0 ""
    let artifactId := parts.getD 1 ""
    let r :=
      if parts.length >= 4 then
        if parts.length == 4 then
          if goContains (parts.getD 3 "") "compile" || goContains (parts.getD 3 "") "test"
              || goContains (parts.getD 3 "") "provided"
              || goContains (parts.getD 3 "") "runtime" then
            (parts.getD 2 "", parts.getD 3 "", "jar")
          else (parts.getD 3 "", "compile", parts.getD 2 "")
        else
          (parts.getD 3 "", if parts.length > 4 then parts.getD 4 "" else "", parts.getD 2 "")
      else (parts.getD 2 "", "compile", "jar")
    Except.ok (mkMavenTreeDep groupId artifactId r.1 r.2.2 r.2.1)

/-- `MavenScanner.parseDependencyLine`: strip the `[INFO]` prefix and the
tree-drawing tokens, trim, split on `:` and decode the parts. -/
def parseDependencyLine (line : String) : Except String Dependency :=
  decodeDependencyParts line
    (goSplit
      (goTrim
        (goReplaceAll (goReplaceAll (goReplaceAll (goReplaceAll line "[INFO]" "")
          "+-" "") "\\-" "") "|" ""))
      ":")

/-- `MavenScanner.parseDependencyTreeOutput`: keep the `+-`/`\-` tree lines
that contain a `:` and parse each, dropping the ones that fail. -/
def parseDependencyTreeOutput (output : String) : List Dependency :=
  (goSplit output "\n").filterMap (fun l =>
    let line := goTrim l
    if line == "" || !(goContains line ":") then none
    else if goContains line "+-" || goContains line "\\-" then
      match parseDependencyLine line with
      | Except.ok dep => some dep
      | Except.error _ => none
    else none)

/-- `MavenScanner.ScanExecute`, main path: a root with build tool `"maven"`
and the dependency-tree results; project identity is filled in only when the
POM parse succeeded (Go zero values otherwise). -/
def mavenTreeScanRoot (projectInfo : Option MavenPOM) (deps : List Dependency) :
    DependencyRoot :=
  let root : DependencyRoot :=
    { projectName := "", projectVersion := "", buildTool := "maven", dependencies := deps }
  match projectInfo with
  | some pom => { root with projectName := pom.artifactID, projectVersion := pom.version }
  | none => root

/-! ## Gradle scanner (`GradleScanner`, scanners file)

The `'group:artifact:version'` literal is recognised by a `regexp` submatch
(an external library call, abstracted as the optional submatch triple); the
scope classification from the configuration keyword is in-source string
logic and embedded as such. -/

/-- `GradleScanner.parseGradleDependency`: `none` when the regex does not
match (fewer than 4 submatches); otherwise a `"gradle"`-typed dependency
whose scope derives from the keyword on the line. -/
def parseGradleDependency (line : String)
    (submatch : Option (String × String × String)) : Option Dependency :=
  match submatch with
  | none => none
  | some (group, artifact, version) =>
    let scope :=
      if goContains line "testImplementation" || goContains line "testCompile" then "test"
      else if goContains line "compileOnly" then "provided"
      else "runtime"
    some
      { id := { group := group, name := artifact, version := version, type := "gradle" }
        name := artifact, version := version, type := "gradle", scope := scope }

/-- The dependency-collecting part of `GradleScanner.parseBuildGradle`: lines
containing a configuration keyword are fed to `parseGradleDependency`
(each line paired with its regex submatch). -/
def parseBuildGradleDeps
    (glines : List (String × Option (String × String × String))) : List Dependency :=
  glines.filterMap (fun ls =>
    if goContains ls.1 "implementation" || goContains ls.1 "compile"
        || goContains ls.1 "api" || goContains ls.1 "testImplementation" then
      parseGradleDependency ls.1 ls.2
    else none)

/-- `GradleScanner.ScanExecute`: one root with build tool `"gradle"`; a parse
failure falls back to an unknown project with no dependencies. -/
def gradleScanExecute (parsed : Option (String × String × List Dependency)) :
    List DependencyRoot :=
  let r : DependencyRoot :=
    match parsed with
    | some (n, v, deps) =>
      { projectName := n, projectVersion := v, buildTool := "gradle", dependencies := deps }
    | none =>
      { projectName := "unknown", projectVersion := "unknown"
        buildTool := "gradle", dependencies := [] }
  [r]

/-! ## Go-modules scanner (`GoScanner`, scanners file) -/

/-- One decoded JSON object of `go list -m -json all` (JSON decoding is an
external collaborator). -/
structure GoModuleInfo where
  path : String
  version : String
  main : Bool
  indirect : Bool
deriving Repr, DecidableEq

/-- `GoScanner.getGoDependencies` (conversion part): skip the main module
and empty paths; every kept module becomes a `"go"`-typed dependency with
scope `"indirect"` or `"runtime"`. -/
def getGoDependencies (modules : List GoModuleInfo) : List Dependency :=
  modules.filterMap (fun m =>
    if !m.main && !(m.path == "") then
      some
        { id := { group := "", name := m.path, version := m.version, type := "go" }
          name := m.path, version := m.version, type := "go"
          scope := if m.indirect then "indirect" else "runtime" }
    else none)

/-- `GoScanner.ScanExecute` (root construction). -/
def goScanExecute (projectName projectVersion : String)
    (modules : List GoModuleInfo) : DependencyRoot :=
  { projectName := projectName, projectVersion := projectVersion
    buildTool := "go", dependencies := getGoDependencies modules }

/-- The gradle dependency produced from
`implementation 'org.springframework:spring-core:5.3.21'`. -/
def gradleTestDep : Dependency :=
  { id := { group := "org.springframework", name := "spring-core"
            version := "5.3.21", type := "gradle" }
    name := "spring-core", version := "5.3.21", type := "gradle", scope := "runtime" }

/-- The go dependency produced from the gin module of the repo's test data. -/
def goTestDep : Dependency :=
  { id := { group := "", name := "github.com/gin-gonic/gin"
            version := "v1.9.1", type := "go" }
    name := "github.com/gin-gonic/gin", version := "v1.9.1", type := "go"
    scope := "runtime" }

/-- The dependency parsed from the tree line
`[INFO] +- junit:junit:jar:4.13.2:test`. -/
def mvnTreeTestDep : Dependency :=
  { id := { group := "junit", name := "junit", version := "4.13.2", type := "jar" }
    name := "junit", version := "4.13.2", type := "jar", scope := "test" }

/-! ## Fingerprint engine (internal/scanner/wfp.go)

Path helpers embed the `path/filepath` calls for the Linux build
(`os.PathSeparator` is `/`). -/

/-- `strings.HasSuffix`. -/
def goHasSuf (s sfx : String) : Bool :=
  sfx.data.reverse.isPrefixOf s.data.reverse

/-- `strings.ToLower` on the ASCII range (the extensions compared against it
are ASCII literals). -/
def goLower (s : String) : String :=
  String.mk (s.data.map (fun c => if c.isUpper then Char.ofNat (c.toNat + 32) else c))

/-- `filepath.Base` for slash-separated paths. -/
def goBase (path : String) : String :=
  if path = "" then "."
  else
    let noTrail := (path.data.reverse.dropWhile (fun c => c == '/')).reverse
    if noTrail = [] then "/"
    else String.mk ((noTrail.reverse.takeWhile (fun c => c != '/')).reverse)

/-- `filepath.Ext` for slash-separated paths: the suffix of the final path
element starting at its last dot, empty when the element has no dot. -/
def goExt (path : String) : String :=
  let seg := path.data.reverse.takeWhile (fun c => c != '/')
  if seg.any (fun c => c == '.') then
    String.mk ('.' :: (seg.takeWhile (fun c => c != '.')).reverse)
  else ""

/-- The fixed skip-directory set of `WfpScanner.shouldSkipFile`. -/
def skipDirs : List String :=
  ["node_modules", "vendor", "target", "build", ".git",
   ".svn", ".hg", "__pycache__", ".tox", "dist", ".gradle"]

/-- The fixed binary/archive/media extension set of `WfpScanner.shouldSkipFile`. -/
def binaryExts : List String :=
  [".exe", ".dll", ".so", ".dylib", ".jar", ".war", ".ear",
   ".zip", ".tar", ".gz", ".bz2", ".7z", ".rar",
   ".png", ".jpg", ".jpeg", ".gif", ".bmp", ".ico",
   ".mp3", ".mp4", ".avi", ".mov", ".wav",
   ".pdf", ".doc", ".docx", ".xls", ".xlsx", ".ppt", ".pptx",
   ".bin", ".class", ".o", ".a", ".lib"]

/-- `WfpScanner.shouldSkipFile`: hidden base name, skip-directory segment,
binary extension, or size above 1 MiB — checked in the source's order.  For a
regular file `size` is `info.Size()`, which equals the content's byte count. -/
def shouldSkipFile (path : String) (size : Nat) : Bool :=
  if goHasPre (goBase path) "." then true
  else if skipDirs.any (fun d => goContains path ("/" ++ d ++ "/") || goHasSuf path ("/" ++ d)) then
    true
  else if binaryExts.any (fun b => goLower (goExt path) == b) then true
  else if size > 1024 * 1024 then true
  else false

/-! ### MD5 (crypto/md5, RFC 1321), on byte lists

Words are `Nat` kept below `2^32` by explicit masking. -/

/-- Bitwise complement within a 32-bit word (arguments are kept `< 2^32`). -/
def wnot (a : Nat) : Nat := 4294967295 - a

/-- 32-bit left rotation. -/
def rotl32 (x s : Nat) : Nat :=
  ((x <<< s) % 4294967296) ||| (x >>> (32 - s))

/-- The 64 sine-derived constants of RFC 1321. -/
def md5K : List Nat :=
  [0xd76aa478, 0xe8c7b756, 0x242070db, 0xc1bdceee,
   0xf57c0faf, 0x4787c62a, 0xa8304613, 0xfd469501,
   0x698098d8, 0x8b44f7af, 0xffff5bb1, 0x895cd7be,
   0x6b901122, 0xfd987193, 0xa679438e, 0x49b40821,
   0xf61e2562, 0xc040b340, 0x265e5a51, 0xe9b6c7aa,
   0xd62f105d, 0x02441453, 0xd8a1e681, 0xe7d3fbc8,
   0x21e1cde6, 0xc33707d6, 0xf4d50d87, 0x455a14ed,
   0xa9e3e905, 0xfcefa3f8, 0x676f02d9, 0x8d2a4c8a,
   0xfffa3942, 0x8771f681, 0x6d9d6122, 0xfde5380c,
   0xa4beea44, 0x4bdecfa9, 0xf6bb4b60, 0xbebfbc70,
   0x289b7ec6, 0xeaa127fa, 0xd4ef3085, 0x04881d05,
   0xd9d4d039, 0xe6db99e5, 0x1fa27cf8, 0xc4ac5665,
   0xf4292244, 0x432aff97, 0xab9423a7, 0xfc93a039,
   0x655b59c3, 0x8f0ccc92, 0xffeff47d, 0x85845dd1,
   0x6fa87e4f, 0xfe2ce6e0, 0xa3014314, 0x4e0811a1,
   0xf7537e82, 0xbd3af235, 0x2ad7d2bb, 0xeb86d391]

/-- The per-step rotation amounts of RFC 1321. -/
def md5S : List Nat :=
  [7, 12, 17, 22, 7, 12, 17, 22, 7, 12, 17, 22, 7, 12, 17, 22,
   5, 9, 14, 20, 5, 9, 14, 20, 5, 9, 14, 20, 5, 9, 14, 20,
   4, 11, 16, 23, 4, 11, 16, 23, 4, 11, 16, 23, 4, 11, 16, 23,
   6, 10, 15, 21, 6, 10, 15, 21, 6, 10, 15, 21, 6, 10, 15, 21]

structure MD5State where
  a : Nat
  b : Nat
  c : Nat
  d : Nat
deriving Repr, DecidableEq

/-- One of the 64 MD5 steps. -/
def md5Step (words : List Nat) (st : MD5State) (i : Nat) : MD5State :=
  let f :=
    if i < 16 then (st.b &&& st.c) ||| (wnot st.b &&& st.d)
    else if i < 32 then (st.d &&& st.b) ||| (wnot st.d &&& st.c)
    else if i < 48 then st.b ^^^ st.c ^^^ st.d
    else st.c ^^^ (st.b ||| wnot st.d)
  let g :=
    if i < 16 then i
    else if i < 32 then (5 * i + 1) % 16
    else if i < 48 then (3 * i + 5) % 16
    else (7 * i) % 16
  let tmp := (f + st.a + md5K.getD i 0 + words.getD g 0) % 4294967296
  { a := st.d, b := (st.b + rotl32 tmp (md5S.getD i 0)) % 4294967296, c := st.b, d := st.c }

/-- Little-endian 32-bit word `j` of a 64-byte block. -/
def leWord (block : List Nat) (j : Nat) : Nat :=
  block.getD (4 * j) 0 + 256 * block.getD (4 * j + 1) 0
    + 65536 * block.getD (4 * j + 2) 0 + 16777216 * block.getD (4 * j + 3) 0

/-- Compression of one 64-byte block. -/
def md5ProcessBlock (st : MD5State) (block : List Nat) : MD5State :=
  let words := (List.range 16).map (leWord block)
  let e := (List.range 64).foldl (md5Step words) st
  { a := (st.a + e.a) % 4294967296, b := (st.b + e.b) % 4294967296
    c := (st.c + e.c) % 4294967296, d := (st.d + e.d) % 4294967296 }

/-- MD5 padding: `0x80`, zeros to 56 mod 64, then the bit length in 64-bit
little-endian form. -/
def md5Pad (msg : List Nat) : List Nat :=
  let len := msg.length
  let zeros := (120 - ((len + 1) % 64)) % 64
  let bitLen := (len * 8) % 18446744073709551616
  msg ++ [128] ++ List.replicate zeros 0
    ++ (List.range 8).map (fun i => (bitLen >>> (8 * i)) % 256)

/-- Fuel-driven 64-byte chunking (the fuel is always at least the number of
blocks, so it never runs out on padded input). -/
def chunk64F : Nat → List Nat → List (List Nat)
  | 0, _ => []
  | _, [] => []
  | Nat.succ fuel, l => l.take 64 :: chunk64F fuel (l.drop 64)

def md5Init : MD5State :=
  { a := 0x67452301, b := 0xefcdab89, c := 0x98badcfe, d := 0x10325476 }

/-- The 16-byte MD5 digest of a byte list (`md5.Sum` in Go). -/
def md5Bytes (msg : List Nat) : List Nat :=
  let padded := md5Pad msg
  let st := (chunk64F padded.length padded).foldl md5ProcessBlock md5Init
  ([st.a, st.b, st.c, st.d].map
    (fun w => [w % 256, (w >>> 8) % 256, (w >>> 16) % 256, (w >>> 24) % 256])).flatten

/-- One lowercase hexadecimal digit. -/
def hexDigit (n : Nat) : Char :=
  "0123456789abcdef".data.getD (n % 16) '0'

/-- `fmt.Sprintf("%x", hash)`: the digest bytes in lowercase hexadecimal, two
digits per byte. -/
def md5Hex (msg : List Nat) : String :=
  String.mk (((md5Bytes msg).map (fun b => [hexDigit (b / 16), hexDigit (b % 16)])).flatten)

/-- Drop a prefix from a character list, or fail. -/
def dropPre : List Char → List Char → Option (List Char)
  | [], l => some l
  | _ :: _, [] => none
  | p :: ps, c :: cs => if p == c then dropPre ps cs else none

/-- `filepath.Rel(TaskDir, filePath)` as the walk uses it: every walked path
lies under the task directory, so `Rel` lexically strips the `taskDir + "/"`
prefix; on failure the Go code falls back to the full path. -/
def relPathOf (taskDir path : String) : String :=
  match dropPre (taskDir ++ "/").data path.data with
  | some rest => String.mk rest
  | none => path

/-- `strings.ReplaceAll(relPath, "\\", "/")` — a single-character pattern, so
a character map. -/
def replaceBackslash (s : String) : String :=
  String.mk (s.data.map (fun c => if c == '\\' then '/' else c))

/-- `WfpScanner.generateFileFingerprint`: read the content, skip empty files
(`""` in Go, `none` here), otherwise the `file=…,hash=…,size=…` record. -/
def generateFileFingerprint (taskDir path : String) (content : List Nat) : Option String :=
  if content.length = 0 then none
  else
    some ("file=" ++ replaceBackslash (relPathOf taskDir path)
      ++ ",hash=" ++ md5Hex content ++ ",size=" ++ Nat.repr content.length)

/-- One filesystem entry seen by the walk: its path, whether it is a
directory, whether opening/reading succeeds, and its content bytes (for a
regular file `info.Size()` equals the byte count). -/
structure WalkEntry where
  path : String
  isDir : Bool
  readable : Bool
  content : List Nat
deriving Repr, DecidableEq

/-- The result of the digest task spawned for one walk-passing file: `none`
if the read fails (logged, skipped) or the file is empty (nothing sent),
otherwise the record string. -/
def taskResult (taskDir : String) (e : WalkEntry) : Option String :=
  if e.readable then generateFileFingerprint taskDir e.path e.content else none

/-- The walk callback of `GenerateWfpFile` for one entry: the output artifact
itself, directories and skip-predicate matches are pruned (`none`); each
remaining file yields one digest task whose outcome is recorded. -/
def walkStep (taskDir wfpFile : String) (e : WalkEntry) : Option (Option String) :=
  if e.path == wfpFile then none
  else if e.isDir || shouldSkipFile e.path e.content.length then none
  else some (taskResult taskDir e)

/-- The whole walk: the digest-task outcomes of all walk-passing files. -/
def digestResults (taskDir wfpFile : String) (entries : List WalkEntry) : List (Option String) :=
  entries.filterMap (walkStep taskDir wfpFile)

/-- The multiset of record lines written by a run (one canonical
linearization; the writer's actual order is scheduler-dependent). -/
def wfpRecords (taskDir wfpFile : String) (entries : List WalkEntry) : List String :=
  (digestResults taskDir wfpFile entries).filterMap id

/-- Spec-side eligibility: a readable, non-empty, non-self, skip-predicate
passing regular file. -/
def eligibleEntry (wfpFile : String) (e : WalkEntry) : Bool :=
  !(e.path == wfpFile) && !e.isDir && !shouldSkipFile e.path e.content.length
    && e.readable && !(e.content.length == 0)

/-- Spec-side serialization of one record
(`file=<relative-path-with-forward-slashes>,hash=<hex>,size=<bytes>`). -/
def recordOf (taskDir : String) (e : WalkEntry) : String :=
  "file=" ++ replaceBackslash (relPathOf taskDir e.path)
    ++ ",hash=" ++ md5Hex e.content ++ ",size=" ++ Nat.repr e.content.length

/-- The fallible environment of one `GenerateWfpFile` call: whether
`os.Stat(scanDir)` succeeds and reports a directory, whether `os.Create`
succeeds, whether artifact writes succeed, and the walked entries. -/
structure WfpWorld where
  rootExists : Bool
  rootIsDir : Bool
  createOk : Bool
  writeOk : Bool
  entries : List WalkEntry
deriving Repr, DecidableEq

/-- `WfpScanner.GenerateWfpFile`: stat check, `TaskDir` defaulting, artifact
creation, the walk with its digest tasks, and the post-wait error check; the
writer fails only if it attempts a write, i.e. when at least one record was
produced. -/
def GenerateWfpFile (scanDir toPath taskDir : String) (w : WfpWorld) :
    Except String (String × List String) :=
  if !(w.rootExists && w.rootIsDir) then
    Except.error ("scan directory not found: " ++ scanDir)
  else
    let taskDir2 := if taskDir = "" then scanDir else taskDir
    let wfpFile := toPath ++ "/fingerprints.wfp"
    if !w.createOk then Except.error "failed to create wfp file"
    else
      let records := wfpRecords taskDir2 wfpFile w.entries
      if !w.writeOk && !records.isEmpty then
        Except.error "error writing fingerprints"
      else Except.ok (wfpFile, records)

/-! ### The concurrency skeleton of `GenerateWfpFile`

State of the goroutine protocol after the artifact has been created: the
digest tasks still to finish (each delivering the `Option String` outcome of
`generateFileFingerprint`), the buffered channel of capacity 100, whether the
channel has been closed (which the main goroutine does only after
`wg.Wait()`), whether the writer goroutine has terminated, and the records it
has written.  The writer is modelled on the success path (writes succeed), as
the claim speaks about successful returns. -/

structure WfpConc where
  pending : List (Option String)
  buf : List String
  closed : Bool
  writerDone : Bool
  written : List String
deriving Repr, DecidableEq

/-- Initial state: all digest tasks in flight, channel empty and open,
writer running, nothing written. -/
def initConc (results : List (Option String)) : WfpConc :=
  { pending := results, buf := [], closed := false, writerDone := false, written := [] }

/-- Interleaving steps: a task with no record finishes; a task sends its
record when the channel has room; the running writer consumes the channel
head; the main goroutine closes the channel once every task has finished
(`wg.Wait`); the writer terminates once the closed channel is drained. -/
inductive WfpStep : WfpConc → WfpConc → Prop where
  | taskSkip (s : WfpConc) (l r : List (Option String)) :
      s.pending = l ++ none :: r →
      WfpStep s { s with pending := l ++ r }
  | taskSend (s : WfpConc) (l r : List (Option String)) (f : String) :
      s.pending = l ++ some f :: r →
      s.buf.length < 100 →
      WfpStep s { s with pending := l ++ r, buf := s.buf ++ [f] }
  | writeRec (s : WfpConc) (f : String) (rest : List String) :
      s.buf = f :: rest →
      s.writerDone = false →
      WfpStep s { s with buf := rest, written := s.written ++ [f] }
  | chClose (s : WfpConc) :
      s.pending = [] →
      s.closed = false →
      WfpStep s { s with closed := true }
  | writerExit (s : WfpConc) :
      s.closed = true →
      s.buf = [] →
      s.writerDone = false →
      WfpStep s { s with writerDone := true }

/-- The return point of `GenerateWfpFile`: `wg.Wait()`, `close`, and
`writerWG.Wait()` have all completed. -/
def FinalConc (s : WfpConc) : Prop := s.closed = true ∧ s.writerDone = true

/-- Reachability under the interleaving semantics. -/
def ReachConc (s t : WfpConc) : Prop := Relation.ReflTransGen WfpStep s t

/-- Ranking function: every step strictly decreases it. -/
def concMeasure (s : WfpConc) : Nat :=
  2 * s.pending.length + s.buf.length
    + (if s.closed then 0 else 1) + (if s.writerDone then 0 else 1)

/-- All records of the run, wherever they currently sit. -/
def concLoad (s : WfpConc) : List String :=
  s.written ++ s.buf ++ s.pending.filterMap id

/-- Protocol invariant: the writer only exits after close with a drained
channel, and close happens only after every task has finished. -/
def ConcInv (s : WfpConc) : Prop :=
  (s.writerDone = true → s.closed = true ∧ s.buf = []) ∧
  (s.closed = true → s.pending = [])

/-- Concrete one-file tree used to evaluate the concurrency theorem. -/
def c4Entries : List WalkEntry :=
  [{ path := "/r/a.txt", isDir := false, readable := true, content := [97] }]

/-- The single record of `c4Entries`. -/
def c4Record : String :=
  "file=a.txt,hash=" ++ md5Hex [97] ++ ",size=1"

/-- Concrete two-entry tree (one eligible source file, one binary-extension
file) used to evaluate the multiset theorem. -/
def c3Entries : List WalkEntry :=
  [ { path := "/r/a.txt", isDir := false, readable := true, content := [97] }
  , { path := "/r/b.bin", isDir := false, readable := true, content := [1, 2] } ]

/-- The same tree enumerated in the opposite order (a different scheduling
of the walk/digest completion). -/
def c3EntriesRev : List WalkEntry :=
  [ { path := "/r/b.bin", isDir := false, readable := true, content := [1, 2] }
  , { path := "/r/a.txt", isDir := false, readable := true, content := [97] } ]

/-! ## Lookup helpers used to state the merge-policy claims -/

/-- First binding for a name in the embedded Go map. -/
def assocFind (m : List (String × Dependency)) (x : String) : Option Dependency :=
  (m.find? (fun kv => kv.1 == x)).map Prod.snd

/-- The last dependency with a given name in a list — the one whose map
insertion survives in Go's `for … { depMap[dep.Name] = dep }` loop. -/
def lastWithName (l : List Dependency) (x : String) : Option Dependency :=
  l.foldl (fun acc d => if d.name == x then some d else acc) none

/-- First dependency with a given name in a result list. -/
def findByName (l : List Dependency) (x : String) : Option Dependency :=
  l.find? (fun d => d.name == x)

section Theorems

/-! ## Resolver theorems -/

lemma scanStep_eq (acc : List DependencyRoot) (s : ScannerRun) :
    scanStep acc s = acc ++ successContribution s := by
  unfold scanStep successContribution
  cases s.exeFind <;> cases s.fileFind <;> cases s.scanExecute <;> simp

lemma foldl_scanStep (scanners : List ScannerRun) (acc : List DependencyRoot) :
    scanners.foldl scanStep acc = acc ++ specAggregate scanners := by
  induction scanners generalizing acc with
  | nil => simp [specAggregate]
  | cons s t ih =>
    simp only [List.foldl_cons, scanStep_eq, ih, specAggregate, List.map_cons,
      List.flatten_cons, List.append_assoc]

/-- **C2.** `BuildScanner.ScanDependencies` returns a nil error on every input:
the result is `Except.ok` of exactly the concatenation, in scanner order, of
the `DependencyRoot` lists of those scanners all of whose steps succeed; a
scanner whose manifest lookup or execute step fails contributes nothing, and
an empty scanner list (no recognizable ecosystem) yields the empty list. -/
theorem scanDependencies_ok_aggregates (scanners : List ScannerRun) :
    ScanDependencies scanners = Except.ok (specAggregate scanners) ∧
    ScanDependencies [] = Except.ok [] := by
  constructor
  · unfold ScanDependencies
    rw [foldl_scanStep]
    simp
  · rfl

/-- **C1.** The code contradicts the claim: when a scanner's `ExeFind` step
fails (here: Maven with no `mvn` on PATH and no wrapper), the loop in
`BuildScanner.ScanDependencies` `continue`s before `FileFind`/`ScanExecute`
ever run, so the scanner's manifest is not parsed and its `DependencyRoot`
values are absent from the result — the call returns `ok []` even though the
manifest lookup and execute steps would have succeeded. -/
theorem scanDependencies_drops_scanner_on_exeFind_failure :
    ScanDependencies
      [ { exeFind := Except.error "maven executable not found"
          fileFind := Except.ok ()
          scanExecute := Except.ok [mavenPomTestRoot] } ] = Except.ok [] := rfl

/-! ## Maven theorems -/

/-- **C10.** For a POM with `N` `<dependency>` elements the fallback parse
returns exactly `N` dependencies, in order; a dependency lacking `<scope>`
gets scope `"compile"` and one lacking `<type>` gets type `"jar"` (declared
values are kept verbatim). -/
theorem pomToDepencyRoot_count_and_defaults (pom : MavenPOM) :
    (pomToDepencyRoot pom).dependencies.length = pom.dependencies.length ∧
    ∀ i (h : i < pom.dependencies.length),
      ((pomToDepencyRoot pom).dependencies.get
          ⟨i, by simpa [pomToDepencyRoot] using h⟩).scope
        = (if (pom.dependencies.get ⟨i, h⟩).scope = ""
            then "compile" else (pom.dependencies.get ⟨i, h⟩).scope) ∧
      ((pomToDepencyRoot pom).dependencies.get
          ⟨i, by simpa [pomToDepencyRoot] using h⟩).type
        = (if (pom.dependencies.get ⟨i, h⟩).type = ""
            then "jar" else (pom.dependencies.get ⟨i, h⟩).type) := by
  refine ⟨by simp [pomToDepencyRoot], ?_⟩
  intro i h
  have hget : (pomToDepencyRoot pom).dependencies.get
      ⟨i, by simpa [pomToDepencyRoot] using h⟩
      = convertPomDep (pom.dependencies.get ⟨i, h⟩) := by
    simp [pomToDepencyRoot]
  rw [hget]
  set dep := pom.dependencies.get ⟨i, h⟩ with hdep
  unfold convertPomDep
  by_cases ht : dep.type = "" <;> by_cases hs : dep.scope = "" <;>
    simp [ht, hs]

/-- **C10, witness.** The defaults evaluated on `pomNoType`, whose single
dependency declares a scope but no type. -/
theorem pomToDepencyRoot_count_and_defaults_witness :
    (pomToDepencyRoot pomNoType).dependencies.length = 1 ∧
    ((pomToDepencyRoot pomNoType).dependencies.get ⟨0, by decide⟩).type = "jar" := by
  have h := pomToDepencyRoot_count_and_defaults pomNoType
  refine ⟨h.1, ?_⟩
  have h2 := (h.2 0 (by decide)).2
  simpa [pomNoType] using h2

/-- **C7, counterexample.** The claim fails on the code: for a POM dependency
lacking `<type>`, `pomToDepencyRoot` leaves `ID.Type` empty (the `"jar"`
default is applied only to the outer `Type` field), so the produced root —
whose `BuildTool` is `"maven"` — contains a dependency whose `ID.Type` is
neither the root's `BuildTool` identifier nor the sub-tag `"jar"`. -/
theorem pomToDepencyRoot_idType_counterexample :
    (pomToDepencyRoot pomNoType).buildTool = "maven" ∧
    ∃ d ∈ (pomToDepencyRoot pomNoType).dependencies,
      d.id.type ≠ (pomToDepencyRoot pomNoType).buildTool ∧ d.id.type ≠ "jar" := by
  refine ⟨rfl, ⟨convertPomDep (pomNoType.dependencies.get ⟨0, by decide⟩), ?_, ?_, ?_⟩⟩
  · simp [pomToDepencyRoot, pomNoType]
  · decide
  · decide

/-! ## npm theorems -/

lemma length_filter_scope_map (s t : String) (l : List (String × String)) :
    ((l.map (npmDep s)).filter (fun d => d.scope == t)).length
      = if s = t then l.length else 0 := by
  induction l with
  | nil => simp
  | cons a l ih =>
    by_cases h : s = t
    · subst h
      simp only [List.map_cons, List.filter_cons, npmDep, beq_self_eq_true,
        if_true, List.length_cons, ih, if_pos rfl]
    · have hb : ((npmDep s a).scope == t) = false := by
        simp [npmDep, h]
      simp [List.filter_cons, hb, ih, h]

/-- **C8.** Parsing a package.json with `R` runtime, `D` dev and `P` peer
entries yields exactly `R+D+P` dependencies: the runtime entries carry scope
`"runtime"`, the dev entries `"development"`, the peer entries `"peer"`, and
counting by scope recovers the three map sizes. -/
theorem parsePackageJson_counts (p : PackageInfo) :
    ((parsePackageJson p).2.2).length
      = p.dependencies.length + p.devDependencies.length + p.peerDependencies.length ∧
    (((parsePackageJson p).2.2).filter (fun d => d.scope == "runtime")).length
      = p.dependencies.length ∧
    (((parsePackageJson p).2.2).filter (fun d => d.scope == "development")).length
      = p.devDependencies.length ∧
    (((parsePackageJson p).2.2).filter (fun d => d.scope == "peer")).length
      = p.peerDependencies.length := by
  unfold parsePackageJson
  refine ⟨by simp [Nat.add_assoc], ?_, ?_, ?_⟩ <;>
    simp [List.filter_append, length_filter_scope_map]

/-! ## pip merge theorems -/

lemma assocFind_cons (kv : String × Dependency) (rest : List (String × Dependency)) (x : String) :
    assocFind (kv :: rest) x = if kv.1 == x then some kv.2 else assocFind rest x := by
  unfold assocFind
  rw [List.find?_cons]
  cases hp : (kv.1 == x) <;> simp [hp]

lemma assocFind_insertDep (m : List (String × Dependency)) (d : Dependency) (x : String) :
    assocFind (insertDep m d) x = if x = d.name then some d else assocFind m x := by
  induction m with
  | nil =>
    by_cases h : x = d.name
    · have hdx : (d.name == x) = true := beq_iff_eq.mpr h.symm
      simp [insertDep, assocFind_cons, hdx, h, assocFind]
    · have hdx : (d.name == x) = false := beq_eq_false_iff_ne.mpr (fun he => h he.symm)
      simp [insertDep, assocFind_cons, hdx, h, assocFind]
  | cons kv rest ih =>
    by_cases hk : kv.1 = d.name
    · have hkb : (kv.1 == d.name) = true := beq_iff_eq.mpr hk
      by_cases hx : x = d.name
      · have h1 : (kv.1 == x) = true := beq_iff_eq.mpr (hk.trans hx.symm)
        simp [insertDep, hkb, assocFind_cons, h1, hx]
      · have h1 : (kv.1 == x) = false :=
          beq_eq_false_iff_ne.mpr (fun he => hx (he.symm.trans hk))
        simp [insertDep, hkb, assocFind_cons, h1, hx]
    · have hkb : (kv.1 == d.name) = false := beq_eq_false_iff_ne.mpr hk
      by_cases he : kv.1 = x
      · have h1 : (kv.1 == x) = true := beq_iff_eq.mpr he
        have hx : ¬x = d.name := fun hxd => hk (he.trans hxd)
        simp [insertDep, hkb, assocFind_cons, h1, hx]
      · have h1 : (kv.1 == x) = false := beq_eq_false_iff_ne.mpr he
        simp [insertDep, hkb, assocFind_cons, h1, ih]

lemma foldl_lastAux (x : String) (t : List Dependency) (acc : Option Dependency) :
    t.foldl (fun acc d => if d.name == x then some d else acc) acc
      = match t.foldl (fun acc d => if d.name == x then some d else acc) none with
        | some e => some e
        | none => acc := by
  induction t generalizing acc with
  | nil => simp
  | cons u v ih =>
    simp only [List.foldl_cons]
    rw [ih ((fun acc d => if d.name == x then some d else acc) acc u),
      ih ((fun acc d => if d.name == x then some d else acc) none u)]
    cases hv : v.foldl (fun acc d => if d.name == x then some d else acc) none with
    | some e => simp
    | none =>
      by_cases h : u.name == x <;> simp [h]

lemma lastWithName_cons (d : Dependency) (t : List Dependency) (x : String) :
    lastWithName (d :: t) x
      = match lastWithName t x with
        | some e => some e
        | none => if d.name == x then some d else none := by
  unfold lastWithName
  simp only [List.foldl_cons]
  exact foldl_lastAux x t _

lemma assocFind_foldl (l : List Dependency) (m : List (String × Dependency)) (x : String) :
    assocFind (l.foldl insertDep m) x
      = match lastWithName l x with
        | some d => some d
        | none => assocFind m x := by
  induction l generalizing m with
  | nil => simp [lastWithName]
  | cons d t ih =>
    simp only [List.foldl_cons]
    rw [ih, lastWithName_cons]
    cases h : lastWithName t x with
    | some e => simp
    | none =>
      by_cases hx : x = d.name
      · simp [assocFind_insertDep, hx]
      · have : (d.name == x) = false := by
          simp; exact fun he => hx (he ▸ rfl)
        simp [assocFind_insertDep, hx, this]

lemma insertDep_keys (m : List (String × Dependency)) (d : Dependency)
    (h : ∀ kv ∈ m, kv.1 = kv.2.name) :
    ∀ kv ∈ insertDep m d, kv.1 = kv.2.name := by
  induction m with
  | nil =>
    intro kv hkv
    simp [insertDep] at hkv
    simp [hkv]
  | cons a rest ih =>
    intro kv hkv
    by_cases ha : a.1 == d.name
    · simp only [insertDep, if_pos ha, List.mem_cons] at hkv
      rcases hkv with h1 | h2
      · rw [h1]
        exact beq_iff_eq.mp ha
      · exact h kv (List.mem_cons_of_mem a h2)
    · simp only [insertDep, if_neg ha, List.mem_cons] at hkv
      rcases hkv with h1 | h2
      · exact h kv (h1 ▸ List.mem_cons_self a rest)
      · exact ih (fun kv hk => h kv (List.mem_cons_of_mem a hk)) kv h2

lemma foldl_insertDep_keys (l : List Dependency) (m : List (String × Dependency))
    (h : ∀ kv ∈ m, kv.1 = kv.2.name) :
    ∀ kv ∈ l.foldl insertDep m, kv.1 = kv.2.name := by
  induction l generalizing m with
  | nil => simpa using h
  | cons d t ih =>
    simp only [List.foldl_cons]
    exact ih (insertDep m d) (insertDep_keys m d h)

lemma findByName_map_snd (m : List (String × Dependency))
    (h : ∀ kv ∈ m, kv.1 = kv.2.name) (x : String) :
    findByName (m.map Prod.snd) x = assocFind m x := by
  induction m with
  | nil => simp [findByName, assocFind]
  | cons kv rest ih =>
    have hkv : kv.1 = kv.2.name := h kv (List.mem_cons_self kv rest)
    have hrest := ih (fun a ha => h a (List.mem_cons_of_mem kv ha))
    by_cases hx : kv.2.name == x
    · simp [findByName, assocFind, List.find?, hkv, hx]
    · simp [findByName, assocFind, List.find?, hkv, hx] at hrest ⊢
      exact hrest

lemma insertDep_snd_subset (m : List (String × Dependency)) (d : Dependency) :
    ∀ v ∈ (insertDep m d).map Prod.snd, v ∈ m.map Prod.snd ∨ v = d := by
  induction m with
  | nil =>
    intro v hv
    simp [insertDep] at hv
    exact Or.inr hv
  | cons kv rest ih =>
    intro v hv
    by_cases hk : kv.1 == d.name
    · simp only [insertDep, if_pos hk, List.map_cons, List.mem_cons] at hv
      rcases hv with h1 | h2
      · exact Or.inr h1
      · exact Or.inl (List.mem_cons_of_mem kv.2 h2)
    · simp only [insertDep, if_neg hk, List.map_cons, List.mem_cons] at hv
      rcases hv with h1 | h2
      · exact Or.inl (h1 ▸ List.mem_cons_self kv.2 (rest.map Prod.snd))
      · rcases ih v h2 with h3 | h4
        · exact Or.inl (List.mem_cons_of_mem kv.2 h3)
        · exact Or.inr h4

lemma foldl_insertDep_snd_subset (l : List Dependency) (m : List (String × Dependency)) :
    ∀ v ∈ (l.foldl insertDep m).map Prod.snd, v ∈ m.map Prod.snd ∨ v ∈ l := by
  induction l generalizing m with
  | nil =>
    intro v hv
    simp only [List.foldl_nil] at hv
    exact Or.inl hv
  | cons d t ih =>
    intro v hv
    simp only [List.foldl_cons] at hv
    rcases ih (insertDep m d) v hv with h1 | h2
    · rcases insertDep_snd_subset m d v h1 with h3 | h4
      · exact Or.inl h3
      · exact Or.inr (h4 ▸ List.mem_cons_self d t)
    · exact Or.inr (List.mem_cons_of_mem d h2)

lemma mergeDependencies_mem (reqs inst : List Dependency) :
    ∀ v ∈ mergeDependencies reqs inst, v ∈ reqs ∨ v ∈ inst := by
  intro v hv
  unfold mergeDependencies at hv
  rcases foldl_insertDep_snd_subset reqs _ v hv with h1 | h2
  · rcases foldl_insertDep_snd_subset inst [] v h1 with h3 | h4
    · simp at h3
    · exact Or.inr h4
  · exact Or.inl h2

/-- **C9.** The pip merge policy: when a package name has a declared
requirement (the surviving map insertion is the last requirement with that
name), the merged list reports exactly that requirement — in particular its
declared version — and contains it; a name that appears only in the
introspected installed list keeps its installed entry unchanged in the merged
result. -/
theorem mergeDependencies_prefers_requirements (reqs inst : List Dependency) (x : String) :
    (∀ d, lastWithName reqs x = some d →
        findByName (mergeDependencies reqs inst) x = some d ∧
        d ∈ mergeDependencies reqs inst) ∧
    (lastWithName reqs x = none →
      ∀ e, lastWithName inst x = some e →
        findByName (mergeDependencies reqs inst) x = some e ∧
        e ∈ mergeDependencies reqs inst) := by
  have hkeys : ∀ kv ∈ (reqs.foldl insertDep (inst.foldl insertDep [])), kv.1 = kv.2.name :=
    foldl_insertDep_keys reqs _ (foldl_insertDep_keys inst [] (by simp))
  have hfind : findByName (mergeDependencies reqs inst) x
      = assocFind (reqs.foldl insertDep (inst.foldl insertDep [])) x :=
    findByName_map_snd _ hkeys x
  have hchar : assocFind (reqs.foldl insertDep (inst.foldl insertDep [])) x
      = match lastWithName reqs x with
        | some d => some d
        | none =>
          match lastWithName inst x with
          | some e => some e
          | none => none := by
    rw [assocFind_foldl]
    cases lastWithName reqs x with
    | some d => rfl
    | none =>
      rw [assocFind_foldl]
      cases lastWithName inst x with
      | some e => rfl
      | none => simp [assocFind]
  constructor
  · intro d hd
    have h1 : findByName (mergeDependencies reqs inst) x = some d := by
      rw [hfind, hchar, hd]
    exact ⟨h1, List.mem_of_find?_eq_some h1⟩
  · intro hnone e he
    have h1 : findByName (mergeDependencies reqs inst) x = some e := by
      rw [hfind, hchar, hnone, he]
    exact ⟨h1, List.mem_of_find?_eq_some h1⟩

/-- **C9, witness.** The spec's own example: `X` declared as `1.2.0` in
requirements.txt while the installed list reports `1.1.0`; the merged list
reports `1.2.0` for `X`, and the introspection-only package `Y` is kept. -/
theorem mergeDependencies_prefers_requirements_witness :
    findByName
        (mergeDependencies [parseRequirementLine "X==1.2.0"]
          [mkPipDep "X" "1.1.0", mkPipDep "Y" "2.0"]) "X"
      = some (mkPipDep "X" "1.2.0") ∧
    mkPipDep "Y" "2.0" ∈
      mergeDependencies [parseRequirementLine "X==1.2.0"]
        [mkPipDep "X" "1.1.0", mkPipDep "Y" "2.0"] := by
  have hX := (mergeDependencies_prefers_requirements
      [parseRequirementLine "X==1.2.0"]
      [mkPipDep "X" "1.1.0", mkPipDep "Y" "2.0"] "X").1
      (parseRequirementLine "X==1.2.0") (by decide)
  have hY := (mergeDependencies_prefers_requirements
      [parseRequirementLine "X==1.2.0"]
      [mkPipDep "X" "1.1.0", mkPipDep "Y" "2.0"] "Y").2
      (by decide) (mkPipDep "Y" "2.0") (by decide)
  refine ⟨?_, hY.2⟩
  rw [hX.1]
  decide

/-! ## Build-tool / type invariants (C7) -/

lemma convertPomDep_fields (src : MavenDependency) :
    (convertPomDep src).type = (if src.type = "" then "jar" else src.type) ∧
    (convertPomDep src).id.type = src.type := by
  unfold convertPomDep
  by_cases ht : src.type = "" <;> by_cases hs : src.scope = "" <;> simp [ht, hs]

lemma parseRequirementLine_type (l : String) :
    (parseRequirementLine l).type = "pip" ∧ (parseRequirementLine l).id.type = "pip" :=
  ⟨rfl, rfl⟩

lemma parseRequirementsFile_types (lines : List String) :
    ∀ d ∈ parseRequirementsFile lines, d.type = "pip" ∧ d.id.type = "pip" := by
  intro d hd
  unfold parseRequirementsFile at hd
  obtain ⟨raw, _, hsome⟩ := List.mem_filterMap.mp hd
  dsimp only at hsome
  split at hsome
  · cases hsome
  · split at hsome
    · cases hsome
    · split at hsome
      · cases hsome
      · cases hsome
        exact ⟨rfl, rfl⟩

lemma parsePipFreezeOutput_types (out : String) :
    ∀ d ∈ parsePipFreezeOutput out, d.type = "pip" ∧ d.id.type = "pip" := by
  intro d hd
  unfold parsePipFreezeOutput at hd
  obtain ⟨l, _, hsome⟩ := List.mem_filterMap.mp hd
  dsimp only at hsome
  split at hsome
  · cases hsome
  · split at hsome
    · cases hsome
      exact ⟨rfl, rfl⟩
    · cases hsome

lemma parsePipenvFreezeOutput_types (out : String) :
    ∀ d ∈ parsePipenvFreezeOutput out, d.type = "pipenv" ∧ d.id.type = "pipenv" := by
  intro d hd
  unfold parsePipenvFreezeOutput at hd
  obtain ⟨l, _, hsome⟩ := List.mem_filterMap.mp hd
  dsimp only at hsome
  split at hsome
  · cases hsome
  · split at hsome
    · cases hsome
      exact ⟨rfl, rfl⟩
    · cases hsome

lemma parseGradleDependency_type (line : String)
    (sm : Option (String × String × String)) (d : Dependency)
    (h : parseGradleDependency line sm = some d) :
    d.type = "gradle" ∧ d.id.type = "gradle" := by
  unfold parseGradleDependency at h
  cases sm with
  | none => cases h
  | some t =>
    cases h
    exact ⟨rfl, rfl⟩

lemma parseBuildGradleDeps_types
    (glines : List (String × Option (String × String × String))) :
    ∀ d ∈ parseBuildGradleDeps glines, d.type = "gradle" ∧ d.id.type = "gradle" := by
  intro d hd
  unfold parseBuildGradleDeps at hd
  obtain ⟨ls, _, hsome⟩ := List.mem_filterMap.mp hd
  split at hsome
  · exact parseGradleDependency_type ls.1 ls.2 d hsome
  · cases hsome

lemma getGoDependencies_types (modules : List GoModuleInfo) :
    ∀ d ∈ getGoDependencies modules, d.type = "go" ∧ d.id.type = "go" := by
  intro d hd
  unfold getGoDependencies at hd
  obtain ⟨m, _, hsome⟩ := List.mem_filterMap.mp hd
  split at hsome
  · cases hsome
    exact ⟨rfl, rfl⟩
  · cases hsome

lemma decodeDependencyParts_types (line : String) (parts : List String) (d : Dependency)
    (h : decodeDependencyParts line parts = Except.ok d) : d.id.type = d.type := by
  unfold decodeDependencyParts at h
  split at h
  · cases h
  · cases h
    rfl

lemma parseDependencyLine_types (line : String) (d : Dependency)
    (h : parseDependencyLine line = Except.ok d) : d.id.type = d.type :=
  decodeDependencyParts_types line _ d h

lemma parseDependencyTreeOutput_types (out : String) :
    ∀ d ∈ parseDependencyTreeOutput out, d.id.type = d.type := by
  intro d hd
  unfold parseDependencyTreeOutput at hd
  obtain ⟨l, _, hsome⟩ := List.mem_filterMap.mp hd
  dsimp only at hsome
  split at hsome
  · cases hsome
  · split at hsome
    · split at hsome
      · rename_i dep heq
        cases hsome
        exact parseDependencyLine_types _ _ heq
      · cases hsome
    · cases hsome

/-- **C7 (amended).** Every root carries the tool identifier of the scanner
that produced it: `"maven"` from both Maven paths, and `"npm"`, `"pip"`,
`"pipenv"`, `"gradle"`, `"go"` from the respective scanners.  For npm, pip,
pipenv, gradle and go every dependency's `Type` and `ID.Type` equal the
root's build tool.  For Maven both fields carry the dependency's Maven type
rather than the tool identifier: in the dependency-tree path `Type` and
`ID.Type` are equal (the parsed type, `"jar"` where the tree line omits it),
while in the POM-fallback path the `"jar"` default is applied only to
`Type` — `ID.Type` keeps the declared `<type>` verbatim, so it is empty when
the element is absent. -/
theorem roots_buildTool_and_dependency_types
    (pom : MavenPOM) (projectInfo : Option MavenPOM) (mvnOut : String)
    (p : PackageInfo)
    (lines : List String) (installedOut : Option String)
    (pipName pipVer pvName pvVer : String) (freezeOut : String)
    (gParsed : Option (String × String × List Dependency))
    (glines : List (String × Option (String × String × String)))
    (goName goVer : String) (modules : List GoModuleInfo) :
    (pomToDepencyRoot pom).buildTool = "maven" ∧
    (∀ d ∈ (pomToDepencyRoot pom).dependencies, ∃ src ∈ pom.dependencies,
        d.type = (if src.type = "" then "jar" else src.type) ∧ d.id.type = src.type) ∧
    ((mavenTreeScanRoot projectInfo (parseDependencyTreeOutput mvnOut)).buildTool
        = "maven") ∧
    (∀ d ∈ (mavenTreeScanRoot projectInfo (parseDependencyTreeOutput mvnOut)).dependencies,
        d.id.type = d.type) ∧
    (∃ r, npmScanExecute (Except.ok p) = Except.ok [r] ∧ r.buildTool = "npm" ∧
        ∀ d ∈ r.dependencies, d.type = "npm" ∧ d.id.type = "npm") ∧
    ((pipScanExecute (parseRequirementsFile lines)
          (installedOut.map parsePipFreezeOutput) pipName pipVer).buildTool = "pip" ∧
      ∀ d ∈ (pipScanExecute (parseRequirementsFile lines)
          (installedOut.map parsePipFreezeOutput) pipName pipVer).dependencies,
        d.type = "pip" ∧ d.id.type = "pip") ∧
    ((pipenvScanExecute pvName pvVer freezeOut).buildTool = "pipenv" ∧
      ∀ d ∈ (pipenvScanExecute pvName pvVer freezeOut).dependencies,
        d.type = "pipenv" ∧ d.id.type = "pipenv") ∧
    ((∀ r ∈ gradleScanExecute gParsed, r.buildTool = "gradle") ∧
      ∀ d ∈ parseBuildGradleDeps glines, d.type = "gradle" ∧ d.id.type = "gradle") ∧
    ((goScanExecute goName goVer modules).buildTool = "go" ∧
      ∀ d ∈ (goScanExecute goName goVer modules).dependencies,
        d.type = "go" ∧ d.id.type = "go") := by
  refine ⟨rfl, ?_, ?_, ?_, ?_, ⟨rfl, ?_⟩, ⟨rfl, ?_⟩,
    ⟨?_, parseBuildGradleDeps_types glines⟩, ⟨rfl, getGoDependencies_types modules⟩⟩
  · intro d hd
    simp only [pomToDepencyRoot, List.mem_map] at hd
    obtain ⟨src, hsrc, hconv⟩ := hd
    exact ⟨src, hsrc, hconv ▸ (convertPomDep_fields src).1, hconv ▸ (convertPomDep_fields src).2⟩
  · cases projectInfo <;> rfl
  · intro d hd
    have hd2 : d ∈ parseDependencyTreeOutput mvnOut := by
      cases projectInfo <;> exact hd
    exact parseDependencyTreeOutput_types mvnOut d hd2
  · refine ⟨_, rfl, rfl, ?_⟩
    intro d hd
    simp only [parsePackageJson, List.mem_append, List.mem_map] at hd
    rcases hd with (⟨nv, _, hnv⟩ | ⟨nv, _, hnv⟩) | ⟨nv, _, hnv⟩ <;>
      exact ⟨hnv ▸ rfl, hnv ▸ rfl⟩
  · intro d hd
    cases installedOut with
    | none =>
      simp only [Option.map_none, pipScanExecute] at hd
      exact parseRequirementsFile_types lines d hd
    | some out =>
      simp only [Option.map_some, pipScanExecute] at hd
      rcases mergeDependencies_mem _ _ d hd with h1 | h2
      · exact parseRequirementsFile_types lines d h1
      · exact parsePipFreezeOutput_types out d h2
  · intro d hd
    exact parsePipenvFreezeOutput_types freezeOut d hd
  · intro r hr
    cases gParsed with
    | none =>
      simp only [gradleScanExecute, List.mem_singleton] at hr
      rw [hr]
    | some t =>
      simp only [gradleScanExecute, List.mem_singleton] at hr
      rw [hr]

/-- **C7 (amended), witness.** The invariants evaluated at the POM without a
`<type>` element, a dependency-tree line, a requirements line `X==1.2.0`
merged with installed `X==1.1.0`, one pipenv freeze line, a gradle
`implementation` line, and the gin module. -/
theorem roots_buildTool_and_dependency_types_witness :
    (pomToDepencyRoot pomNoType).buildTool = "maven" ∧
    (mkPipDep "X" "1.2.0").type = "pip" ∧
    (mkPipenvDep "A" "1.0").id.type = "pipenv" ∧
    gradleTestDep.type = "gradle" ∧
    goTestDep.id.type = "go" ∧
    mvnTreeTestDep.id.type = mvnTreeTestDep.type := by
  have h := roots_buildTool_and_dependency_types pomNoType none
    "[INFO] +- junit:junit:jar:4.13.2:test"
    ⟨"n", "1.0", [("express", "4")], [], []⟩
    ["X==1.2.0"] (some "X==1.1.0") "proj" "0.1" "unknown" "unknown" "A==1.0"
    none
    [("implementation 'org.springframework:spring-core:5.3.21'",
      some ("org.springframework", "spring-core", "5.3.21"))]
    "mod" "1.21"
    [{ path := "github.com/gin-gonic/gin", version := "v1.9.1"
       main := false, indirect := false }]
  refine ⟨h.1, ?_, ?_, ?_, ?_, ?_⟩
  · exact (h.2.2.2.2.2.1.2 (mkPipDep "X" "1.2.0") (by decide)).1
  · exact (h.2.2.2.2.2.2.1.2 (mkPipenvDep "A" "1.0") (by decide)).2
  · exact (h.2.2.2.2.2.2.2.1.2 gradleTestDep (by decide)).1
  · exact (h.2.2.2.2.2.2.2.2.2 goTestDep (by decide)).2
  · exact h.2.2.2.1 mvnTreeTestDep (by decide)

/-! ## MD5 / record-format lemmas -/

lemma md5Bytes_length (msg : List Nat) : (md5Bytes msg).length = 16 := by
  unfold md5Bytes
  simp

lemma flatten_pairs_length (l : List Nat) (f g : Nat → Char) :
    ((l.map (fun b => [f b, g b])).flatten).length = 2 * l.length := by
  induction l with
  | nil => simp
  | cons b t ih => simp [ih]; omega

lemma md5Hex_length (msg : List Nat) : (md5Hex msg).length = 32 := by
  unfold md5Hex
  show (((md5Bytes msg).map (fun b => [hexDigit (b / 16), hexDigit (b % 16)])).flatten).length = 32
  rw [flatten_pairs_length, md5Bytes_length]

lemma hexDigit_mem (n : Nat) : hexDigit n ∈ "0123456789abcdef".data := by
  have h16 : n % 16 < 16 := Nat.mod_lt _ (by norm_num)
  unfold hexDigit
  set k := n % 16 with hk
  interval_cases k <;> decide

lemma md5Hex_chars (msg : List Nat) :
    ∀ c ∈ (md5Hex msg).data, c ∈ "0123456789abcdef".data := by
  intro c hc
  have hc2 : c ∈ ((md5Bytes msg).map (fun b => [hexDigit (b / 16), hexDigit (b % 16)])).flatten := hc
  rw [List.mem_flatten] at hc2
  obtain ⟨pair, hpair, hcp⟩ := hc2
  rw [List.mem_map] at hpair
  obtain ⟨b, _, hb⟩ := hpair
  rw [← hb] at hcp
  simp only [List.mem_cons, List.not_mem_nil, or_false] at hcp
  rcases hcp with h | h <;> rw [h]
  · exact hexDigit_mem (b / 16)
  · exact hexDigit_mem (b % 16)

lemma dropPre_append (p r : List Char) : dropPre p (p ++ r) = some r := by
  induction p with
  | nil => rfl
  | cons c cs ih => simp [dropPre, ih]

lemma relPathOf_under (taskDir rest : String) :
    relPathOf taskDir (taskDir ++ "/" ++ rest) = rest := by
  unfold relPathOf
  have h : (taskDir ++ "/" ++ rest).data = (taskDir ++ "/").data ++ rest.data := by
    simp [String.data_append]
  rw [h, dropPre_append]

lemma replaceBackslash_no_backslash (s : String) :
    ∀ c ∈ (replaceBackslash s).data, c ≠ '\\' := by
  intro c hc
  have hc2 : c ∈ s.data.map (fun c => if c == '\\' then '/' else c) := hc
  rw [List.mem_map] at hc2
  obtain ⟨c0, _, hc0⟩ := hc2
  by_cases h : c0 = '\\'
  · simp [h] at hc0
    rw [← hc0]
    decide
  · have hb : (c0 == '\\') = false := beq_eq_false_iff_ne.mpr h
    rw [hb] at hc0
    simp at hc0
    exact hc0 ▸ h

/-- **C5.** For a non-empty file under the task directory the produced record
is exactly `file=<relative-path>,hash=<digest>,size=<byte-count>`, where the
relative path has every backslash replaced by a forward slash, the hash is
the 32-character lowercase-hexadecimal MD5 digest of the full content, and
the size is the decimal byte count; a zero-byte file produces no record. -/
theorem generateFileFingerprint_format (taskDir rest : String) (content : List Nat)
    (h : content ≠ []) :
    generateFileFingerprint taskDir (taskDir ++ "/" ++ rest) content
      = some ("file=" ++ replaceBackslash rest ++ ",hash=" ++ md5Hex content
          ++ ",size=" ++ Nat.repr content.length) ∧
    (md5Hex content).length = 32 ∧
    (∀ c ∈ (md5Hex content).data, c ∈ "0123456789abcdef".data) ∧
    (∀ c ∈ (replaceBackslash rest).data, c ≠ '\\') ∧
    (∀ td p, generateFileFingerprint td p ([] : List Nat) = none) := by
  refine ⟨?_, md5Hex_length content, md5Hex_chars content,
    replaceBackslash_no_backslash rest, fun td p => rfl⟩
  unfold generateFileFingerprint
  rw [if_neg (by simpa using h), relPathOf_under]

/-- **C5, witness.** The record format evaluated on content `"abc"`. -/
theorem generateFileFingerprint_format_witness :
    generateFileFingerprint "/r" ("/r" ++ "/" ++ "a.txt") [97, 98, 99]
      = some ("file=" ++ replaceBackslash "a.txt" ++ ",hash=" ++ md5Hex [97, 98, 99]
          ++ ",size=" ++ Nat.repr ([97, 98, 99] : List Nat).length) ∧
    (md5Hex [97, 98, 99]).length = 32 :=
  ⟨(generateFileFingerprint_format "/r" "a.txt" [97, 98, 99] (by decide)).1,
   (generateFileFingerprint_format "/r" "a.txt" [97, 98, 99] (by decide)).2.1⟩

/-- RFC 1321 test vector: this file's MD5 agrees with `md5("abc")`. -/
theorem md5Hex_rfc_abc : md5Hex [97, 98, 99] = "900150983cd24fb0d6963f7d28e17f72" := by
  decide

/-- RFC 1321 test vector: this file's MD5 agrees with `md5("")`. -/
theorem md5Hex_rfc_empty : md5Hex [] = "d41d8cd98f00b204e9800998ecf8427e" := by
  decide

/-! ## Record-multiset theorems (C3) -/

lemma entry_contribution (taskDir wfpFile : String) (e : WalkEntry) (t : List WalkEntry)
    (hr : e.readable = true) :
    wfpRecords taskDir wfpFile (e :: t)
      = (if eligibleEntry wfpFile e then [recordOf taskDir e] else [])
          ++ wfpRecords taskDir wfpFile t := by
  unfold wfpRecords
  simp only [digestResults, List.filterMap_cons]
  by_cases h1 : e.path == wfpFile
  · have helig : eligibleEntry wfpFile e = false := by simp [eligibleEntry, h1]
    have hw : walkStep taskDir wfpFile e = none := by simp [walkStep, h1]
    simp [hw, helig]
  · by_cases h2 : e.isDir
    · have helig : eligibleEntry wfpFile e = false := by simp [eligibleEntry, h2]
      have hw : walkStep taskDir wfpFile e = none := by simp [walkStep, h1, h2]
      simp [hw, helig]
    · by_cases h3 : shouldSkipFile e.path e.content.length
      · have helig : eligibleEntry wfpFile e = false := by simp [eligibleEntry, h3]
        have hw : walkStep taskDir wfpFile e = none := by simp [walkStep, h1, h2, h3]
        simp [hw, helig]
      · have hw : walkStep taskDir wfpFile e = some (taskResult taskDir e) := by
          simp [walkStep, h1, h2, h3]
        by_cases h4 : e.content.length = 0
        · have helig : eligibleEntry wfpFile e = false := by simp [eligibleEntry, h4]
          have htask : taskResult taskDir e = none := by
            simp [taskResult, hr, generateFileFingerprint, h4]
          simp [hw, htask, helig]
        · have helig : eligibleEntry wfpFile e = true := by
            simp [eligibleEntry, h1, h2, h3, h4, hr]
          have htask : taskResult taskDir e = some (recordOf taskDir e) := by
            simp [taskResult, hr, generateFileFingerprint, h4, recordOf]
          simp [hw, htask, helig]

/-- **C3.** The record multiset of a run is exactly one record — the
`recordOf` serialization — per eligible file (readable, non-empty, non-self,
skip-predicate-passing regular file): the records are the image of the
eligible entries, their count equals the eligible-file count, and any two
enumerations of the same unchanged tree (the walk/digest completion order is
scheduler-dependent) produce permutation-equal, i.e. multiset-equal, record
lists with identical hash and size per path. -/
theorem wfpRecords_one_record_per_eligible_file
    (taskDir wfpFile : String) (e1 e2 : List WalkEntry)
    (hperm : e1.Perm e2) (hread : ∀ e ∈ e1, e.readable = true) :
    wfpRecords taskDir wfpFile e1
      = (e1.filter (eligibleEntry wfpFile)).map (recordOf taskDir) ∧
    (wfpRecords taskDir wfpFile e1).length
      = (e1.filter (eligibleEntry wfpFile)).length ∧
    (wfpRecords taskDir wfpFile e1).Perm (wfpRecords taskDir wfpFile e2) := by
  have main : ∀ l : List WalkEntry, (∀ e ∈ l, e.readable = true) →
      wfpRecords taskDir wfpFile l
        = (l.filter (eligibleEntry wfpFile)).map (recordOf taskDir) := by
    intro l hl
    induction l with
    | nil => rfl
    | cons e t ih =>
      rw [entry_contribution taskDir wfpFile e t (hl e (List.mem_cons_self e t))]
      rw [ih (fun x hx => hl x (List.mem_cons_of_mem e hx))]
      by_cases he : eligibleEntry wfpFile e <;> simp [List.filter_cons, he]
  have h1 := main e1 hread
  have hread2 : ∀ e ∈ e2, e.readable = true := fun e he => hread e (hperm.mem_iff.mpr he)
  have h2 := main e2 hread2
  refine ⟨h1, by rw [h1]; simp, ?_⟩
  rw [h1, h2]
  exact (hperm.filter _).map _

/-- **C3, witness.** A two-entry tree (one eligible `.txt`, one skipped
`.bin`) enumerated in both orders: one record, and permutation-equal record
lists. -/
theorem wfpRecords_one_record_per_eligible_file_witness :
    (wfpRecords "/r" "/out/fingerprints.wfp" c3Entries).length
      = (c3Entries.filter (eligibleEntry "/out/fingerprints.wfp")).length ∧
    (wfpRecords "/r" "/out/fingerprints.wfp" c3Entries).Perm
      (wfpRecords "/r" "/out/fingerprints.wfp" c3EntriesRev) := by
  have h := wfpRecords_one_record_per_eligible_file "/r" "/out/fingerprints.wfp"
    c3Entries c3EntriesRev (by decide) (by decide)
  exact ⟨h.2.1, h.2.2⟩

/-! ## Error-behavior theorems (C6) -/

lemma wfpRecords_append (taskDir wfpFile : String) (l1 l2 : List WalkEntry) :
    wfpRecords taskDir wfpFile (l1 ++ l2)
      = wfpRecords taskDir wfpFile l1 ++ wfpRecords taskDir wfpFile l2 := by
  simp [wfpRecords, digestResults, List.filterMap_append]

lemma wfpRecords_unreadable (taskDir wfpFile : String) (e : WalkEntry)
    (h : e.readable = false) :
    wfpRecords taskDir wfpFile [e] = [] := by
  have hw : walkStep taskDir wfpFile e = none ∨ walkStep taskDir wfpFile e = some none := by
    unfold walkStep
    by_cases h1 : e.path == wfpFile
    · exact Or.inl (by simp [h1])
    · by_cases h2 : e.isDir || shouldSkipFile e.path e.content.length
      · exact Or.inl (by simp [h1, h2])
      · refine Or.inr ?_
        simp [h1, h2, taskResult, h]
  unfold wfpRecords digestResults
  rcases hw with hw | hw <;> simp [List.filterMap_cons, hw]

/-- **C6.** `GenerateWfpFile` fails exactly when the scan root is missing or
not a directory (returning the "scan directory not found" error before
anything is created), when the artifact cannot be created, or when a write of
an actually-produced record fails; with a good root, creation and writes the
call succeeds and returns the record list; an unreadable individual file is
skipped without affecting the outcome, and an empty directory yields a
created artifact with zero records and no error. -/
theorem generateWfpFile_error_cases (scanDir toPath taskDir : String) (w : WfpWorld) :
    ((∃ msg, GenerateWfpFile scanDir toPath taskDir w = Except.error msg) ↔
      (w.rootExists = false ∨ w.rootIsDir = false ∨ w.createOk = false ∨
        (w.writeOk = false ∧
          wfpRecords (if taskDir = "" then scanDir else taskDir)
            (toPath ++ "/fingerprints.wfp") w.entries ≠ []))) ∧
    ((w.rootExists = false ∨ w.rootIsDir = false) →
      GenerateWfpFile scanDir toPath taskDir w
        = Except.error ("scan directory not found: " ++ scanDir)) ∧
    (w.rootExists = true → w.rootIsDir = true → w.createOk = true → w.writeOk = true →
      GenerateWfpFile scanDir toPath taskDir w
        = Except.ok (toPath ++ "/fingerprints.wfp",
            wfpRecords (if taskDir = "" then scanDir else taskDir)
              (toPath ++ "/fingerprints.wfp") w.entries)) ∧
    (w.rootExists = true → w.rootIsDir = true → w.createOk = true → w.entries = [] →
      GenerateWfpFile scanDir toPath taskDir w
        = Except.ok (toPath ++ "/fingerprints.wfp", [])) ∧
    (∀ td wfp (pre post : List WalkEntry) (e : WalkEntry), e.readable = false →
      wfpRecords td wfp (pre ++ e :: post) = wfpRecords td wfp (pre ++ post)) := by
  refine ⟨?_, ?_, ?_, ?_, ?_⟩
  · unfold GenerateWfpFile
    cases hre : w.rootExists <;> cases hrd : w.rootIsDir <;>
      cases hco : w.createOk <;> cases hwo : w.writeOk <;>
        by_cases hrec : wfpRecords (if taskDir = "" then scanDir else taskDir)
            (toPath ++ "/fingerprints.wfp") w.entries = [] <;>
          simp [hre, hrd, hco, hwo, hrec, List.isEmpty_iff]
  · intro hbad
    unfold GenerateWfpFile
    rcases hbad with h | h <;> simp [h]
  · intro h1 h2 h3 h4
    unfold GenerateWfpFile
    simp [h1, h2, h3, h4]
  · intro h1 h2 h3 h4
    unfold GenerateWfpFile
    cases hwo : w.writeOk <;> simp [h1, h2, h3, h4, hwo, wfpRecords, digestResults]
  · intro td wfp pre post e he
    have : pre ++ e :: post = pre ++ [e] ++ post := by simp
    rw [this, wfpRecords_append, wfpRecords_append, wfpRecords_unreadable td wfp e he]
    rw [wfpRecords_append]
    simp

/-- **C6, witness.** An empty scan directory with a good root and artifact:
zero records, no error; and the bad-root error evaluated. -/
theorem generateWfpFile_error_cases_witness :
    GenerateWfpFile "/s" "/out" ""
        { rootExists := true, rootIsDir := true, createOk := true, writeOk := true,
          entries := [] }
      = Except.ok ("/out" ++ "/fingerprints.wfp", []) ∧
    GenerateWfpFile "/missing" "/out" ""
        { rootExists := false, rootIsDir := false, createOk := true, writeOk := true,
          entries := [] }
      = Except.error ("scan directory not found: " ++ "/missing") :=
  ⟨(generateWfpFile_error_cases "/s" "/out" ""
      { rootExists := true, rootIsDir := true, createOk := true, writeOk := true,
        entries := [] }).2.2.2.1 rfl rfl rfl rfl,
   (generateWfpFile_error_cases "/missing" "/out" ""
      { rootExists := false, rootIsDir := false, createOk := true, writeOk := true,
        entries := [] }).2.1 (Or.inl rfl)⟩

/-! ## Concurrency theorems (C4) -/

lemma step_measure {s t : WfpConc} (h : WfpStep s t) : concMeasure t < concMeasure s := by
  rcases s with ⟨p, b, cl, wd, wr⟩
  cases h with
  | taskSkip l r hp =>
    cases cl <;> cases wd <;> simp_all [concMeasure]
  | taskSend l r f hp hb =>
    cases cl <;> cases wd <;> simp_all [concMeasure] <;> omega
  | writeRec f rest hb hwd =>
    cases cl <;> cases wd <;> simp_all [concMeasure]
  | chClose hp hc =>
    cases wd <;> simp_all [concMeasure]
  | writerExit hc hb hwd =>
    cases cl <;> simp_all [concMeasure]

lemma step_inv {s t : WfpConc} (hinv : ConcInv s) (h : WfpStep s t) : ConcInv t := by
  rcases s with ⟨p, b, cl, wd, wr⟩
  cases h with
  | taskSkip l r hp =>
    cases cl <;> cases wd <;> simp_all [ConcInv]
  | taskSend l r f hp hb =>
    cases cl <;> cases wd <;> simp_all [ConcInv]
  | writeRec f rest hb hwd =>
    cases cl <;> simp_all [ConcInv]
  | chClose hp hc =>
    cases wd <;> simp_all [ConcInv]
  | writerExit hc hb hwd =>
    simp_all [ConcInv]

lemma step_load {s t : WfpConc} (h : WfpStep s t) : (concLoad t).Perm (concLoad s) := by
  cases h with
  | taskSkip l r hp =>
    have heq : concLoad { s with pending := l ++ r } = concLoad s := by
      simp [concLoad, hp, List.filterMap_append]
    rw [heq]
  | taskSend l r f hp hb =>
    simp only [concLoad, hp, List.filterMap_append, List.filterMap_cons, id,
      List.append_assoc]
    refine List.Perm.append_left s.written ?_
    refine List.Perm.append_left s.buf ?_
    simpa using (List.perm_middle).symm
  | writeRec f rest hb hwd =>
    have heq : concLoad { s with buf := rest, written := s.written ++ [f] } = concLoad s := by
      simp [concLoad, hb]
    rw [heq]
  | chClose hp hc =>
    exact List.Perm.refl _
  | writerExit hc hb hwd =>
    exact List.Perm.refl _

lemma reach_inv (rs : List (Option String)) {s : WfpConc}
    (h : ReachConc (initConc rs) s) : ConcInv s := by
  induction h with
  | refl =>
    constructor
    · intro hw
      simp [initConc] at hw
    · intro hc
      simp [initConc] at hc
  | tail h1 h2 ih => exact step_inv ih h2

lemma reach_load (rs : List (Option String)) {s : WfpConc}
    (h : ReachConc (initConc rs) s) :
    (concLoad s).Perm (rs.filterMap id) := by
  induction h with
  | refl =>
    have : concLoad (initConc rs) = rs.filterMap id := by simp [concLoad, initConc]
    rw [this]
  | tail h1 h2 ih => exact (step_load h2).trans ih

lemma conc_progress (s : WfpConc) (hinv : ConcInv s) (hnf : ¬FinalConc s) :
    ∃ t, WfpStep s t := by
  cases hp : s.pending with
  | cons p rest =>
    cases p with
    | none => exact ⟨_, WfpStep.taskSkip s [] rest (by simpa using hp)⟩
    | some f =>
      by_cases hb : s.buf.length < 100
      · exact ⟨_, WfpStep.taskSend s [] rest f (by simpa using hp) hb⟩
      · have hwd : s.writerDone = false := by
          cases hw : s.writerDone
          · rfl
          · have h1 := hinv.1 hw
            have h2 := hinv.2 h1.1
            rw [h2] at hp
            cases hp
        have hb0 : s.buf ≠ [] := by
          intro hnil
          rw [hnil] at hb
          simp at hb
        cases hbuf : s.buf with
        | nil => exact absurd hbuf hb0
        | cons b bs => exact ⟨_, WfpStep.writeRec s b bs hbuf hwd⟩
  | nil =>
    cases hc : s.closed with
    | false => exact ⟨_, WfpStep.chClose s hp hc⟩
    | true =>
      cases hbuf : s.buf with
      | cons b bs =>
        have hwd : s.writerDone = false := by
          cases hw : s.writerDone
          · rfl
          · have h1 := hinv.1 hw
            rw [h1.2] at hbuf
            cases hbuf
        exact ⟨_, WfpStep.writeRec s b bs hbuf hwd⟩
      | nil =>
        have hwd : s.writerDone = false := by
          cases hw : s.writerDone
          · rfl
          · exact absurd ⟨hc, hw⟩ hnf
        exact ⟨_, WfpStep.writerExit s hc hbuf hwd⟩

lemma conc_no_infinite (f : ℕ → WfpConc) (hstep : ∀ n, WfpStep (f n) (f (n + 1))) :
    False := by
  have hdec : ∀ n, concMeasure (f (n + 1)) < concMeasure (f n) :=
    fun n => step_measure (hstep n)
  have hle : ∀ n, concMeasure (f n) + n ≤ concMeasure (f 0) := by
    intro n
    induction n with
    | zero => simp
    | succ k ih =>
      have := hdec k
      omega
  have := hle (concMeasure (f 0) + 1)
  omega

/-- **C4.** The goroutine protocol of `GenerateWfpFile` always runs to the
return point: no infinite execution exists (every step decreases a ranking
function), every non-final reachable state has an enabled step (no deadlock on
the success path), and in every reachable final state — channel closed after
`wg.Wait()`, writer drained and terminated — the written records are exactly
(as a multiset) the fingerprints of all eligible files, so the artifact is
fully flushed when the call returns. -/
theorem generateWfp_terminates_and_flushes (taskDir wfpFile : String)
    (entries : List WalkEntry) :
    (∀ f : ℕ → WfpConc,
        f 0 = initConc (digestResults taskDir wfpFile entries) →
        (∀ n, WfpStep (f n) (f (n + 1))) → False) ∧
    (∀ s, ReachConc (initConc (digestResults taskDir wfpFile entries)) s →
        ¬FinalConc s → ∃ t, WfpStep s t) ∧
    (∀ s, ReachConc (initConc (digestResults taskDir wfpFile entries)) s →
        FinalConc s → s.written.Perm (wfpRecords taskDir wfpFile entries)) := by
  refine ⟨fun f _ hstep => conc_no_infinite f hstep, ?_, ?_⟩
  · intro s hr hnf
    exact conc_progress s (reach_inv _ hr) hnf
  · intro s hr hf
    have hinv := reach_inv _ hr
    have hload := reach_load _ hr
    have hp : s.pending = [] := hinv.2 hf.1
    have hb : s.buf = [] := (hinv.1 hf.2).2
    have heq : concLoad s = s.written := by simp [concLoad, hp, hb]
    rw [heq] at hload
    exact hload

/-- **C4, witness.** A full execution of the protocol on a one-file tree:
send, close, write, writer exit; the final state has the single record
written. -/
theorem generateWfp_terminates_and_flushes_witness :
    ({ pending := [], buf := [], closed := true, writerDone := true,
       written := [c4Record] } : WfpConc).written.Perm
      (wfpRecords "/r" "/out/fingerprints.wfp" c4Entries) := by
  have hd : digestResults "/r" "/out/fingerprints.wfp" c4Entries = [some c4Record] := by
    decide
  refine (generateWfp_terminates_and_flushes "/r" "/out/fingerprints.wfp" c4Entries).2.2
    _ ?_ ⟨rfl, rfl⟩
  rw [hd]
  exact Relation.ReflTransGen.head
    (WfpStep.taskSend (initConc [some c4Record]) [] [] c4Record rfl (by decide))
    (Relation.ReflTransGen.head
      (WfpStep.chClose
        { pending := [], buf := [c4Record], closed := false, writerDone := false,
          written := [] } rfl rfl)
      (Relation.ReflTransGen.head
        (WfpStep.writeRec
          { pending := [], buf := [c4Record], closed := true, writerDone := false,
            written := [] } c4Record [] rfl rfl)
        (Relation.ReflTransGen.single
          (WfpStep.writerExit
            { pending := [], buf := [], closed := true, writerDone := false,
              written := [c4Record] } rfl rfl rfl))))

end Theorems

end CleanSource
